import Mathlib

/-
Verification development for the `ugrd` initramfs generator
(`src/ugrd/initramfs_generator.py`, version 0.6.2).

The Python class `InitramfsGenerator` is shallowly embedded here:
  * hooks (the callables stored in `config_dict['imports']`) become values
    of type `Hook` recording the hook's name together with its observable
    behaviour (raising an exception, or returning `None`, a string, or a
    list of strings);
  * the `imports` mapping becomes an association list `Imports`, with
    Python's `dict.get(key)` (no default) modelled by `getImports`
    returning an `Option`;
  * methods that can raise become functions into `Except PyErr _`, and the
    order of hook invocations and of the final file write is recorded as a
    trace of `IEvent`s;
  * the filesystem touched by `_mkdir`/`_chown` becomes an explicit
    association list from paths (component lists) to ownership records;
  * `subprocess.run` results become an explicit `CmdResult` record and the
    logger becomes an accumulated list of `LogEntry`s.
-/

namespace Ugrd

/-- Severity levels of the generator's logger. -/
inductive LogLevel where
  | debug
  | info
  | warning
  | error
deriving DecidableEq, Repr

/-- One log record: severity plus the formatted message. -/
structure LogEntry where
  level : LogLevel
  msg : String
deriving DecidableEq, Repr

/-- Python exceptions the embedded code can raise. -/
inductive PyErr where
  | typeError
  | fileNotFoundError
  | fileExistsError
  | recursionError
  | runtimeError (msg : String)
  | hookException (msg : String)
deriving DecidableEq, Repr

deriving instance DecidableEq for Except

/-- Return value of a hook callable: `None`, a single string, or a
sequence of strings (the three shapes `_run_hook` distinguishes). -/
inductive HookRet where
  | noneRet
  | str (s : String)
  | seq (l : List String)
deriving DecidableEq, Repr

/-- Python truthiness of a hook return value, as tested by
`if function_output := func(self):` — `None`, `""` and `[]` are falsy. -/
def HookRet.isTruthy : HookRet → Bool
  | .noneRet => false
  | .str s => !s.isEmpty
  | .seq l => !l.isEmpty

/-- The lines a hook return value denotes: a string is one line
(`out += [function_output]`), a sequence is taken element-wise
(`out.extend(function_output)`). -/
def HookRet.lines : HookRet → List String
  | .noneRet => []
  | .str s => [s]
  | .seq l => l

/-- Observable behaviour of one hook call: it either raises an exception
or returns a `HookRet`. -/
inductive HookBehavior where
  | raiseExc (msg : String)
  | ret (r : HookRet)
deriving DecidableEq, Repr

/-- A registered hook: its `__name__` and its behaviour when invoked with
the generator as argument. -/
structure Hook where
  name : String
  behavior : HookBehavior
deriving DecidableEq, Repr

/-- Whether the hook raises when invoked. -/
def Hook.raises (h : Hook) : Bool :=
  match h.behavior with
  | .raiseExc _ => true
  | .ret _ => false

/-- The lines a non-raising hook contributes to `_run_hook`'s output:
its return value's lines when truthy, nothing when falsy. -/
def Hook.contrib (h : Hook) : List String :=
  match h.behavior with
  | .raiseExc _ => []
  | .ret r => if r.isTruthy then r.lines else []

/-- The `config_dict['imports']` mapping: stage name to ordered hook
list, as an association list (first binding wins, like a Python dict). -/
abbrev Imports := List (String × List Hook)

/-- Python `imports.get(level)`: `some hooks` when the stage is bound,
`none` (Python `None`) when it is absent. -/
def getImports (imports : Imports) (level : String) : Option (List Hook) :=
  (imports.find? (fun e => e.1 == level)).map (fun e => e.2)

/-- Events observable during init generation: a hook invocation at a
stage, or the final file write performed by `_write`. -/
inductive IEvent where
  | invoked (level name : String)
  | wrote (path contents : String) (mode : Nat)
deriving DecidableEq, Repr

/-- The loop body of `_run_hook`: runs the hooks of `level` in
registration order, recording each invocation; a raising hook aborts the
rest of the stage and propagates its exception. -/
def runHookLoop (level : String) : List Hook → List IEvent × Except PyErr (List String)
  | [] => ([], .ok [])
  | h :: rest =>
    match h.behavior with
    | .raiseExc msg => ([.invoked level h.name], .error (.hookException msg))
    | .ret r =>
      match runHookLoop level rest with
      | (tr, .error e) => (.invoked level h.name :: tr, .error e)
      | (tr, .ok out) =>
        (.invoked level h.name :: tr, .ok ((if r.isTruthy then r.lines else []) ++ out))

/-- Embeds `_run_hook`: seeds the output with the sentinel element
`"\n\n# Begin <level>"` and iterates over `imports.get(level)`.  When the
stage has no binding, `get` returns `None` and the `for` loop raises
`TypeError` before producing any output. -/
def run_hook (imports : Imports) (level : String) : List IEvent × Except PyErr (List String) :=
  match getImports imports level with
  | none => ([], .error .typeError)
  | some hooks =>
    match runHookLoop level hooks with
    | (tr, .error e) => (tr, .error e)
    | (tr, .ok out) => (tr, .ok (("\n\n# Begin " ++ level) :: out))

/-- The fixed `self.init_types` list. -/
def init_types : List String := ["init_main", "init_late", "init_mount"]

/-- Runs `_run_hook` for each level in turn, concatenating outputs, as the
loop in `generate_init_main` does; an exception stops the iteration. -/
def runLevels (imports : Imports) : List String → List IEvent × Except PyErr (List String)
  | [] => ([], .ok [])
  | l :: rest =>
    match run_hook imports l with
    | (t, .error e) => (t, .error e)
    | (t, .ok out) =>
      match runLevels imports rest with
      | (t2, .error e) => (t ++ t2, .error e)
      | (t2, .ok out2) => (t ++ t2, .ok (out ++ out2))

/-- Embeds `generate_init_main`: runs the three `init_types` stages in
order and concatenates their outputs. -/
def generate_init_main (imports : Imports) : List IEvent × Except PyErr (List String) :=
  runLevels imports init_types

/-- Truthiness of `self.config_dict['imports'].get('custom_init')`:
true exactly when the stage is bound to a non-empty hook list. -/
def customInitTruthy (imports : Imports) : Bool :=
  match getImports imports "custom_init" with
  | none => false
  | some hooks => !hooks.isEmpty

/-- The path separator character, written via its code point. -/
def slash : Char := Char.ofNat 47

/-- Python `file_name.startswith('/')`, equivalently POSIX
`Path(p).is_absolute()`: the first character is a slash. -/
def isAbsolute (s : String) : Bool := s.data.head? == some slash

/-- Python `Path(p).relative_to('/')` for an absolute `p`: drop the
leading separator. -/
def relative_to_root (s : String) : String := ⟨s.data.drop 1⟩

/-- Python `Path(a) / b` for a relative `b`: join with a separator. -/
def pathJoin (a b : String) : String := a ++ "/" ++ b

/-- The file write performed by `_write`: resolved path, the contents
joined by `"\n".join(contents)`, and the `chmod` mask. -/
structure WriteOp where
  path : String
  contents : String
  mode : Nat
deriving DecidableEq, Repr

/-- Embeds `_write`: resolves `file_name` (an absolute-looking name is
re-rooted under `build_dir` when `in_build_dir` is set), joins the
contents with newlines, and records the `chmod` mask. -/
def write_ (build_dir file_name : String) (contents : List String)
    (chmod_mask : Nat) (in_build_dir : Bool) : WriteOp :=
  let file_path :=
    if in_build_dir then
      if isAbsolute file_name then pathJoin build_dir (relative_to_root file_name)
      else pathJoin build_dir file_name
    else file_name
  ⟨file_path, String.intercalate "\n" contents, chmod_mask⟩

/-- The module version `__version__` of the source file. -/
def version : String := "0.6.2"

/-- The configuration state `generate_init` reads: the hook registry, the
configured shebang and the build directory. -/
structure GenConfig where
  imports : Imports
  shebang : String
  build_dir : String
deriving DecidableEq, Repr

/-- Embeds `generate_init`: shebang, version comment, `init_pre` output,
then either `custom_init` output (when that stage has hooks) or the three
`init_types` stages, then `init_final` output and the closing
`"\n\n# END INIT"` element; finally `_write('init', init, 0o755)`.  The
trace records hook invocations and, on success, the final write; a hook
exception propagates and no write event is emitted. -/
def generate_init (cfg : GenConfig) : List IEvent × Except PyErr (List String × WriteOp) :=
  match run_hook cfg.imports "init_pre" with
  | (t1, .error e) => (t1, .error e)
  | (t1, .ok pre) =>
    match (if customInitTruthy cfg.imports
           then run_hook cfg.imports "custom_init"
           else generate_init_main cfg.imports) with
    | (t2, .error e) => (t1 ++ t2, .error e)
    | (t2, .ok mid) =>
      match run_hook cfg.imports "init_final" with
      | (t3, .error e) => (t1 ++ t2 ++ t3, .error e)
      | (t3, .ok fin) =>
        let init := cfg.shebang ::
          ("# Generated by initramfs_generator.py v" ++ version) ::
          (pre ++ mid ++ fin ++ ["\n\n# END INIT"])
        let w := write_ cfg.build_dir "init" init 0o755 true
        (t1 ++ t2 ++ t3 ++ [.wrote w.path w.contents w.mode], .ok (init, w))

/-- The result of `subprocess.run(args, capture_output=True)`: the
argument list and the captured exit code and streams (already decoded). -/
structure CmdResult where
  args : List String
  returncode : Int
  stdout : String
  stderr : String
deriving DecidableEq, Repr

/-- An ASCII single quote, written via its code point. -/
def squote : String := ⟨[Char.ofNat 39]⟩

/-- Python `repr` of a string as used when a list is `%s`-formatted. -/
def pyReprStr (s : String) : String := squote ++ s ++ squote

/-- Python `"%s" % args` for a list of strings:
`['a', 'b']`-style rendering. -/
def pyReprList (l : List String) : String :=
  "[" ++ String.intercalate ", " (l.map pyReprStr) ++ "]"

/-- Embeds `_run`: on nonzero exit it logs the failure and the captured
streams at error level and raises `RuntimeError("Failed to run command:
%s" % cmd.args)`; on zero exit it returns the captured result. -/
def run_ (cmd : CmdResult) : List LogEntry × Except PyErr CmdResult :=
  let dbg : LogEntry := ⟨.debug, "Running command: " ++ pyReprList cmd.args⟩
  if cmd.returncode ≠ 0 then
    ([dbg,
      ⟨.error, "Failed to run command: " ++ pyReprList cmd.args⟩,
      ⟨.error, "Command output: " ++ cmd.stdout⟩,
      ⟨.error, "Command error: " ++ cmd.stderr⟩],
     .error (.runtimeError ("Failed to run command: " ++ pyReprList cmd.args)))
  else ([dbg], .ok cmd)

/-- Ownership and kind of one filesystem entry. -/
structure FileInfo where
  owner : Nat
  group : Nat
  isDir : Bool
deriving DecidableEq, Repr

/-- A filesystem as an association list from absolute paths (component
lists, `[]` being the root `/`) to entry records; the first binding for a
path is the current one. -/
structure FS where
  entries : List (List String × FileInfo)
deriving DecidableEq, Repr

/-- Look up a path's entry. -/
def FS.get (fs : FS) (p : List String) : Option FileInfo :=
  (fs.entries.find? (fun e => e.1 == p)).map (fun e => e.2)

/-- Bind (or rebind) a path to an entry. -/
def FS.set (fs : FS) (p : List String) (i : FileInfo) : FS :=
  ⟨(p, i) :: fs.entries⟩

/-- Python `os.path.isdir`: the root always is a directory; otherwise the
path must exist with `isDir` set. -/
def FS.isdir (fs : FS) (p : List String) : Bool :=
  p.isEmpty ||
    match fs.get p with
    | some i => i.isDir
    | none => false

/-- Python `os.mkdir`: fails when the parent is not a directory or the
path already exists; otherwise creates a directory owned by the calling
process's uid/gid. -/
def osMkdir (fs : FS) (procUid procGid : Nat) (p : List String) : Except PyErr FS :=
  if !fs.isdir p.dropLast then .error .fileNotFoundError
  else if (fs.get p).isSome then .error .fileExistsError
  else .ok (fs.set p ⟨procUid, procGid, true⟩)

/-- Embeds `_chown`: a no-op when the owner and group already equal the
configured `_file_owner_uid`, otherwise `os.chown(path, uid, uid)`;
`path.owner()` raises when the path does not exist. -/
def chown_ (uid : Nat) (fs : FS) (p : List String) : Except PyErr FS :=
  match fs.get p with
  | none => .error .fileNotFoundError
  | some i =>
    if i.owner == uid && i.group == uid then .ok fs
    else .ok (fs.set p ⟨uid, uid, i.isDir⟩)

/-- The recursion of `_mkdir`, with explicit fuel.  Each recursive call
passes a strictly shorter path, so `path.length + 1` units of fuel are
never exhausted (the zero-fuel branch mirrors Python's `RecursionError`
and is unreachable from `mkdir_`). -/
def mkdirF (uid procUid procGid : Nat) : Nat → FS → List String → Except PyErr FS
  | 0, _, _ => .error .recursionError
  | fuel + 1, fs, path =>
    let path_dir := if fs.isdir path then path.dropLast else path
    match (if fs.isdir path_dir.dropLast then Except.ok fs
           else mkdirF uid procUid procGid fuel fs path_dir.dropLast) with
    | .error e => .error e
    | .ok fs1 =>
      match (if fs1.isdir path_dir then Except.ok fs1
             else osMkdir fs1 procUid procGid path) with
      | .error e => .error e
      | .ok fs2 => chown_ uid fs2 path_dir

/-- Embeds `_mkdir`: when `path` is already a directory the working path
becomes its parent; a missing grandparent chain is created recursively;
`os.mkdir(path)` runs only when the working path is missing; finally
`_chown` is applied to the working path (not necessarily to `path`). -/
def mkdir_ (uid procUid procGid : Nat) (fs : FS) (path : List String) : Except PyErr FS :=
  mkdirF uid procUid procGid (path.length + 1) fs path

/-- Embeds the destination resolution of `_copy`: with no explicit
destination the source path is reused; inside the build dir an absolute
destination is re-rooted under `build_dir`.  The result is the
`(source, dest_path)` pair handed to `shutil.copy2`. -/
def copy_ (build_dir source : String) (destOpt : Option String)
    (in_build_dir : Bool) : String × String :=
  let dest := match destOpt with
    | none => source
    | some d => d
  let dest_path :=
    if in_build_dir then
      if isAbsolute dest then pathJoin build_dir (relative_to_root dest)
      else pathJoin build_dir dest
    else dest
  (source, dest_path)

/-- Embeds `deploy_dependencies`: one `_copy(dependency)` per configured
dependency, in configuration order. -/
def deploy_dependencies (build_dir : String) (dependencies : List String) :
    List (String × String) :=
  dependencies.map (fun d => copy_ build_dir d none true)

/-- Events observable during `build_structure`. -/
inductive BEvent where
  | cleanedBuildDir
  | builtinTask (name : String)
  | customTask (stage name : String)
deriving DecidableEq, Repr

/-- Python `shutil.rmtree`: raises when the target does not exist. -/
def rmtree (targetExists : Bool) : Except PyErr Unit :=
  if targetExists then .ok () else .error .fileNotFoundError

/-- Embeds `build_structure`: when `clean` is set an existing build dir
is removed (`rmtree` guarded by `isdir`), a missing one is only logged;
then the built-in pre-build task, the custom `build_pre` hooks, the
built-in build task and the custom `build_tasks` hooks run in that fixed
order. -/
def build_structure (clean buildDirExists : Bool) (imports : Imports) :
    Except PyErr (List BEvent) :=
  match (if clean then
           if buildDirExists then
             match rmtree buildDirExists with
             | .error e => Except.error e
             | .ok _ => Except.ok [BEvent.cleanedBuildDir]
           else Except.ok []
         else Except.ok []) with
  | .error e => .error e
  | .ok evs =>
    .ok (evs ++ [.builtinTask "generate_structure"]
      ++ ((getImports imports "build_pre").getD []).map (fun h => .customTask "build_pre" h.name)
      ++ [.builtinTask "deploy_dependencies"]
      ++ ((getImports imports "build_tasks").getD []).map (fun h => .customTask "build_tasks" h.name))

/-- The spec's worked example for `init_main`: hook1 returns a string,
hook2 returns a two-element sequence. -/
def importsC2 : Imports :=
  [("init_main", [⟨"hook1", .ret (.str "echo A")⟩,
                  ⟨"hook2", .ret (.seq ["echo B1", "echo B2"])⟩])]

/-- A failing command invocation with captured streams. -/
def cmdC3 : CmdResult := ⟨["false"], 1, "out1", "err1"⟩

/-- The message of the `RuntimeError` raised for `cmdC3`. -/
def msgC3 : String := "Failed to run command: " ++ pyReprList ["false"]

/-- A filesystem where `/b/x` already exists as a directory owned by
uid/gid 5 and its parent `/b` is owned by uid/gid 7. -/
def fsC4 : FS := ⟨[(["b", "x"], ⟨5, 5, true⟩), (["b"], ⟨7, 7, true⟩)]⟩

/-- A filesystem where `/a/b` exists as a directory owned by 3 and `/a`
is owned by 4. -/
def fsC10 : FS := ⟨[(["a", "b"], ⟨3, 3, true⟩), (["a"], ⟨4, 4, true⟩)]⟩

/-- A configuration whose `custom_init` stage has a hook while
`init_main` also has one registered. -/
def cfgCustom : GenConfig :=
  ⟨[("init_pre", []),
    ("custom_init", [⟨"c1", .ret (.str "custom line")⟩]),
    ("init_final", []),
    ("init_main", [⟨"hook1", .ret (.str "echo A")⟩])],
   "#!/bin/sh", "/b"⟩

/-- A configuration with all five init stages bound and no
`custom_init` entry. -/
def cfgSmall : GenConfig :=
  ⟨[("init_pre", []), ("init_main", []), ("init_late", []),
    ("init_mount", []), ("init_final", [])],
   "#!", "/b"⟩

/-- The init lines `generate_init` assembles for `cfgSmall`. -/
def linesSmall : List String :=
  ["#!", "# Generated by initramfs_generator.py v0.6.2",
   "\n\n# Begin init_pre", "\n\n# Begin init_main", "\n\n# Begin init_late",
   "\n\n# Begin init_mount", "\n\n# Begin init_final", "\n\n# END INIT"]

/-- The write `generate_init` performs for `cfgSmall`. -/
def wSmall : WriteOp := write_ "/b" "init" linesSmall 0o755 true

/-- A configuration whose `init_pre` hook raises. -/
def cfgRaise : GenConfig :=
  ⟨[("init_pre", [⟨"boom", .raiseExc "kaboom"⟩]), ("init_final", [])],
   "#!/bin/sh", "/b"⟩

/-- The success projection of a fallible filesystem operation. -/
def okFS : Except PyErr FS → Option FS
  | .ok fs => some fs
  | .error _ => none

/-- The assembled line list of a successful `generate_init` result. -/
def okInit : Except PyErr (List String × WriteOp) → Option (List String)
  | .ok pr => some pr.1
  | .error _ => none

end Ugrd

namespace Ugrd

theorem runHookLoop_trace_shape (level : String) (hooks : List Hook) :
    ∃ hs : List Hook,
      (runHookLoop level hooks).1 = hs.map (fun h => IEvent.invoked level h.name) := by
  induction hooks with
  | nil => exact ⟨[], rfl⟩
  | cons h rest ih =>
    cases hb : h.behavior with
    | raiseExc msg => exact ⟨[h], by simp [runHookLoop, hb]⟩
    | ret r =>
      rcases ih with ⟨hs, hhs⟩
      rcases hl : runHookLoop level rest with ⟨tr, res⟩
      rw [hl] at hhs
      cases res with
      | error e => exact ⟨h :: hs, by simp [runHookLoop, hb, hl]; simpa using hhs⟩
      | ok out => exact ⟨h :: hs, by simp [runHookLoop, hb, hl]; simpa using hhs⟩

theorem run_hook_trace_shape (imports : Imports) (level : String) :
    ∃ hs : List Hook,
      (run_hook imports level).1 = hs.map (fun h => IEvent.invoked level h.name) := by
  cases hg : getImports imports level with
  | none => exact ⟨[], by simp [run_hook, hg]⟩
  | some hooks =>
    rcases runHookLoop_trace_shape level hooks with ⟨hs, hhs⟩
    refine ⟨hs, ?_⟩
    rcases hl : runHookLoop level hooks with ⟨tr, res⟩
    rw [hl] at hhs
    cases res with
    | error e => simpa [run_hook, hg, hl] using hhs
    | ok out => simpa [run_hook, hg, hl] using hhs

theorem run_hook_trace_level (imports : Imports) (level : String) :
    ∀ e ∈ (run_hook imports level).1, ∃ n, e = IEvent.invoked level n := by
  intro e he
  rcases run_hook_trace_shape imports level with ⟨hs, hhs⟩
  rw [hhs] at he
  rcases List.mem_map.mp he with ⟨h, _, rfl⟩
  exact ⟨h.name, rfl⟩

theorem run_hook_no_wrote (imports : Imports) (level p c : String) (m : Nat) :
    IEvent.wrote p c m ∉ (run_hook imports level).1 := by
  intro hmem
  rcases run_hook_trace_level imports level _ hmem with ⟨n, hn⟩
  exact IEvent.noConfusion hn

theorem runLevels_trace_level (imports : Imports) (levels : List String) :
    ∀ e ∈ (runLevels imports levels).1,
      ∃ l n, l ∈ levels ∧ e = IEvent.invoked l n := by
  induction levels with
  | nil => simp [runLevels]
  | cons l rest ih =>
    intro e he
    rcases hr : run_hook imports l with ⟨t, res⟩
    cases res with
    | error e0 =>
      simp only [runLevels, hr] at he
      rcases run_hook_trace_level imports l e (by rw [hr]; exact he) with ⟨n, hn⟩
      exact ⟨l, n, List.mem_cons_self l rest, hn⟩
    | ok out =>
      rcases hr2 : runLevels imports rest with ⟨t2, res2⟩
      cases res2 with
      | error e0 =>
        simp only [runLevels, hr, hr2] at he
        rcases List.mem_append.mp he with he | he
        · rcases run_hook_trace_level imports l e (by rw [hr]; exact he) with ⟨n, hn⟩
          exact ⟨l, n, List.mem_cons_self l rest, hn⟩
        · rcases ih e (by rw [hr2]; exact he) with ⟨l2, n, hl2, hn⟩
          exact ⟨l2, n, List.mem_cons_of_mem l hl2, hn⟩
      | ok out2 =>
        simp only [runLevels, hr, hr2] at he
        rcases List.mem_append.mp he with he | he
        · rcases run_hook_trace_level imports l e (by rw [hr]; exact he) with ⟨n, hn⟩
          exact ⟨l, n, List.mem_cons_self l rest, hn⟩
        · rcases ih e (by rw [hr2]; exact he) with ⟨l2, n, hl2, hn⟩
          exact ⟨l2, n, List.mem_cons_of_mem l hl2, hn⟩

theorem generate_init_main_no_wrote (imports : Imports) (p c : String) (m : Nat) :
    IEvent.wrote p c m ∉ (generate_init_main imports).1 := by
  intro hmem
  rcases runLevels_trace_level imports init_types _ hmem with ⟨l, n, _, hn⟩
  exact IEvent.noConfusion hn

theorem runHookLoop_ok (level : String) (hooks : List Hook)
    (hnr : ∀ h ∈ hooks, h.raises = false) :
    runHookLoop level hooks =
      (hooks.map (fun h => IEvent.invoked level h.name),
       .ok (hooks.map Hook.contrib).flatten) := by
  induction hooks with
  | nil => rfl
  | cons h rest ih =>
    have hh : h.raises = false := hnr h (List.mem_cons_self h rest)
    have hrest := ih (fun x hx => hnr x (List.mem_cons_of_mem h hx))
    cases hb : h.behavior with
    | raiseExc msg => simp [Hook.raises, hb] at hh
    | ret r => simp [runHookLoop, hb, hrest, Hook.contrib]

theorem slash_data : ("/" : String).data = [slash] := by decide

theorem pathJoin_relative_to_root (b d : String) (h : isAbsolute d = true) :
    pathJoin b (relative_to_root d) = b ++ d := by
  apply String.ext
  rcases d with ⟨l⟩
  cases l with
  | nil => simp [isAbsolute] at h
  | cons c t =>
    have hc : c = slash := by
      have := of_decide_eq_true h
      simpa using this
    subst hc
    simp [pathJoin, relative_to_root, String.data_append, slash_data]
    decide

theorem string_append_assoc (a b c : String) : a ++ b ++ c = a ++ (b ++ c) := by
  apply String.ext
  simp [String.data_append]

theorem pathJoin_init (b : String) : pathJoin b "init" = b ++ "/init" := by
  apply String.ext
  simp [pathJoin, String.data_append]

theorem generate_init_main_eq (imports : Imports) (tA tB tC : List IEvent)
    (mA mB mC : List String)
    (hA : run_hook imports "init_main" = (tA, .ok mA))
    (hB : run_hook imports "init_late" = (tB, .ok mB))
    (hC : run_hook imports "init_mount" = (tC, .ok mC)) :
    generate_init_main imports = (tA ++ tB ++ tC, .ok (mA ++ mB ++ mC)) := by
  simp [generate_init_main, init_types, runLevels, hA, hB, hC]

theorem invoked_level_eq (imports : Imports) (level lvl nm : String)
    (h : IEvent.invoked lvl nm ∈ (run_hook imports level).1) : lvl = level := by
  rcases run_hook_trace_level imports level _ h with ⟨n, hn⟩
  injection hn

theorem isAbsolute_init : isAbsolute "init" = false := by decide

theorem FS.get_set_self (fs : FS) (p : List String) (i : FileInfo) :
    (fs.set p i).get p = some i := by
  simp [FS.set, FS.get, List.find?_cons]

theorem FS.get_set_ne (fs : FS) (p q : List String) (i : FileInfo) (h : q ≠ p) :
    (fs.set p i).get q = fs.get q := by
  have hpq : (p == q) = false := beq_eq_false_iff_ne.mpr (fun hh => h hh.symm)
  simp [FS.set, FS.get, List.find?_cons, hpq]

/-- C1 (amended): a stage name with no binding in the imports mapping
makes `_run_hook` raise a `TypeError` (the `for` loop iterates `None`)
and produce no output; a stage bound to the empty hook list completes
without error and returns only the leading sentinel element
`"\n\n# Begin <stage>"`. -/
theorem C1_unregistered_stage (imports : Imports) (level : String) :
    (getImports imports level = none →
      run_hook imports level = ([], .error .typeError)) ∧
    (getImports imports level = some [] →
      run_hook imports level = ([], .ok ["\n\n# Begin " ++ level])) := by
  constructor
  · intro h; simp [run_hook, h]
  · intro h; simp [run_hook, h, runHookLoop]

/-- C1 counterexample: with no hooks registered at all, `_run_hook` on
stage `init_main` raises `TypeError` instead of completing with only the
sentinel line. -/
theorem C1_counterexample :
    run_hook ([] : Imports) "init_main" = ([], .error .typeError) ∧
    (run_hook ([] : Imports) "init_main").2 ≠ .ok ["\n\n# Begin init_main"] ∧
    (run_hook ([] : Imports) "init_main").2 ≠ .ok ["# Begin init_main"] := by
  decide

/-- C1 witness: the amended statement evaluated at an unregistered stage
and at a stage registered with the empty hook list. -/
theorem C1_witness :
    run_hook ([] : Imports) "init_pre" = ([], .error .typeError) ∧
    run_hook [("init_pre", ([] : List Hook))] "init_pre" =
      ([], .ok ["\n\n# Begin init_pre"]) := by
  constructor
  · exact (C1_unregistered_stage [] "init_pre").1 rfl
  · have h := (C1_unregistered_stage [("init_pre", ([] : List Hook))] "init_pre").2 rfl
    rw [h]
    decide

/-- C2 counterexample: on the spec's own example the first element of
`_run_hook`'s result is `"\n\n# Begin init_main"`, so the claimed exact
output list starting with `"# Begin init_main"` is not produced. -/
theorem C2_counterexample :
    (run_hook importsC2 "init_main").2 ≠
      .ok ["# Begin init_main", "echo A", "echo B1", "echo B2"] := by
  decide

/-- C2 (amended): for a registered stage whose hooks all return, the
result starts with the sentinel element `"\n\n# Begin <stage>"` followed
by each hook's truthy output in registration order — a string as one
element, a sequence element-wise — and the trace records the hooks in
registration order. -/
theorem C2_run_hook_output (imports : Imports) (level : String) (hooks : List Hook)
    (hreg : getImports imports level = some hooks)
    (hnr : ∀ h ∈ hooks, h.raises = false) :
    run_hook imports level =
      (hooks.map (fun h => IEvent.invoked level h.name),
       .ok (("\n\n# Begin " ++ level) :: (hooks.map Hook.contrib).flatten)) := by
  simp [run_hook, hreg, runHookLoop_ok level hooks hnr]

/-- C2 witness: the amended statement evaluated on the spec's example,
giving the actual output list. -/
theorem C2_witness :
    run_hook importsC2 "init_main" =
      ([IEvent.invoked "init_main" "hook1", IEvent.invoked "init_main" "hook2"],
       .ok ["\n\n# Begin init_main", "echo A", "echo B1", "echo B2"]) := by
  have h := C2_run_hook_output importsC2 "init_main"
      [⟨"hook1", .ret (.str "echo A")⟩, ⟨"hook2", .ret (.seq ["echo B1", "echo B2"])⟩]
      (by decide) (by decide)
  rw [h]
  decide

/-- C3 counterexample: for a failing command the raised `RuntimeError`
carries only the command line; neither the captured stdout nor the
captured stderr occurs in the raised error. -/
theorem C3_counterexample :
    (run_ cmdC3).2 = .error (.runtimeError msgC3) ∧
    ¬ ("out1".data <:+: msgC3.data) ∧ ¬ ("err1".data <:+: msgC3.data) := by
  decide

/-- C3 (amended): a nonzero exit raises
`RuntimeError("Failed to run command: <args>")` while the literal
captured stdout and stderr are emitted to the error log; zero exit
returns the captured result to the caller. -/
theorem C3_run_semantics (cmd : CmdResult) :
    (cmd.returncode ≠ 0 →
      (run_ cmd).2 =
        .error (.runtimeError ("Failed to run command: " ++ pyReprList cmd.args)) ∧
      (⟨.error, "Command output: " ++ cmd.stdout⟩ : LogEntry) ∈ (run_ cmd).1 ∧
      (⟨.error, "Command error: " ++ cmd.stderr⟩ : LogEntry) ∈ (run_ cmd).1) ∧
    (cmd.returncode = 0 → (run_ cmd).2 = .ok cmd) := by
  constructor
  · intro h; simp [run_, h]
  · intro h; simp [run_, h]

/-- C3 witness: the amended statement evaluated at a failing and at a
succeeding command. -/
theorem C3_witness :
    (run_ cmdC3).2 = .error (.runtimeError msgC3) ∧
    (⟨.error, "Command output: " ++ cmdC3.stdout⟩ : LogEntry) ∈ (run_ cmdC3).1 ∧
    (run_ ⟨["true"], 0, "", ""⟩).2 = .ok ⟨["true"], 0, "", ""⟩ := by
  have h1 := (C3_run_semantics cmdC3).1 (by decide)
  have h0 := (C3_run_semantics ⟨["true"], 0, "", ""⟩).2 rfl
  exact ⟨h1.1, h1.2.1, h0⟩

/-- C4: the claim's ownership invariant fails for `_mkdir` on an already
existing directory: `/b/x` (owned by 5) keeps its old owner while the
parent `/b` is chowned to the configured identity 1000. -/
theorem C4_mkdir_existing_dir_keeps_owner :
    (okFS (mkdir_ 1000 0 0 fsC4 ["b", "x"])).bind (fun fs2 => fs2.get ["b", "x"]) =
      some ⟨5, 5, true⟩ ∧
    (okFS (mkdir_ 1000 0 0 fsC4 ["b", "x"])).bind (fun fs2 => fs2.get ["b"]) =
      some ⟨1000, 1000, true⟩ ∧
    (5 : Nat) ≠ 1000 := by
  decide

/-- C10: calling `_mkdir` on a path that already exists as a directory
creates nothing and applies the ownership enforcement to the path's
parent instead: the result is exactly `_chown(parent)`, the set of
directories is unchanged, the path's own entry (hence its ownership) is
untouched, and the parent ends up owned by the configured identity. -/
theorem C10_mkdir_existing_dir_frame (uid pu pg : Nat) (fs : FS) (path : List String)
    (i j : FileInfo)
    (hne : path ≠ [])
    (hp : fs.get path = some i) (hpd : i.isDir = true)
    (hq : fs.get path.dropLast = some j) (hqd : j.isDir = true)
    (hg : fs.isdir path.dropLast.dropLast = true) :
    mkdir_ uid pu pg fs path = chown_ uid fs path.dropLast ∧
    ∃ fs2, mkdir_ uid pu pg fs path = .ok fs2 ∧
      fs2.get path = some i ∧
      (∀ q, fs2.isdir q = fs.isdir q) ∧
      ∃ j2, fs2.get path.dropLast = some j2 ∧
        j2.owner = uid ∧ j2.group = uid ∧ j2.isDir = j.isDir := by
  have hdir : fs.isdir path = true := by simp [FS.isdir, hp, hpd]
  have hdirp : fs.isdir path.dropLast = true := by simp [FS.isdir, hq, hqd]
  have heq : mkdir_ uid pu pg fs path = chown_ uid fs path.dropLast := by
    simp [mkdir_, mkdirF, hdir, hdirp, hg]
  refine ⟨heq, ?_⟩
  have hnedrop : path.dropLast ≠ path := by
    intro hcontr
    have hlen := congrArg List.length hcontr
    rw [List.length_dropLast] at hlen
    have hpos : 0 < path.length := List.length_pos.mpr hne
    omega
  rw [heq]
  simp only [chown_, hq]
  by_cases hown : (j.owner == uid && j.group == uid) = true
  · rw [if_pos hown]
    have hand : j.owner = uid ∧ j.group = uid := by
      simpa using hown
    exact ⟨fs, rfl, hp, fun q => rfl, j, hq, hand.1, hand.2, rfl⟩
  · rw [if_neg hown]
    refine ⟨fs.set path.dropLast ⟨uid, uid, j.isDir⟩, rfl, ?_, ?_, ?_⟩
    · rw [FS.get_set_ne fs path.dropLast path _ (fun hc => hnedrop hc.symm)]
      exact hp
    · intro q
      by_cases hqp : q = path.dropLast
      · subst hqp
        simp [FS.isdir, FS.get_set_self, hq]
      · simp [FS.isdir, FS.get_set_ne fs path.dropLast q _ hqp]
    · exact ⟨⟨uid, uid, j.isDir⟩, FS.get_set_self fs path.dropLast _, rfl, rfl, rfl⟩

/-- C10 witness: the frame property evaluated on a concrete filesystem
where `/a/b` already exists. -/
theorem C10_witness :
    mkdir_ 9 0 0 fsC10 ["a", "b"] = chown_ 9 fsC10 (["a", "b"].dropLast) :=
  (C10_mkdir_existing_dir_frame 9 0 0 fsC10 ["a", "b"] ⟨3, 3, true⟩ ⟨4, 4, true⟩
    (by decide) (by decide) rfl (by decide) rfl (by decide)).1

/-- C7: with the clean flag set and the build dir present,
`build_structure` removes it before any pre-build task or custom hook
runs (the removal is the first event and never recurs); with clean set
and no build dir, no error is raised and the pipeline proceeds; with
clean unset the build dir is never removed. -/
theorem C7_clean_semantics (buildDirExists : Bool) (imports : Imports) :
    (∃ rest, build_structure true true imports = .ok (BEvent.cleanedBuildDir :: rest) ∧
       BEvent.cleanedBuildDir ∉ rest) ∧
    (∃ evs, build_structure true false imports = .ok evs ∧
       BEvent.cleanedBuildDir ∉ evs ∧ BEvent.builtinTask "generate_structure" ∈ evs) ∧
    (∃ evs, build_structure false buildDirExists imports = .ok evs ∧
       BEvent.cleanedBuildDir ∉ evs) := by
  have hrest : BEvent.cleanedBuildDir ∉
      ([BEvent.builtinTask "generate_structure"]
        ++ ((getImports imports "build_pre").getD []).map
            (fun h => BEvent.customTask "build_pre" h.name)
        ++ [BEvent.builtinTask "deploy_dependencies"]
        ++ ((getImports imports "build_tasks").getD []).map
            (fun h => BEvent.customTask "build_tasks" h.name)) := by
    simp
  refine ⟨⟨_, rfl, hrest⟩, ⟨_, rfl, ?_, ?_⟩, ⟨_, rfl, ?_⟩⟩
  · simp
  · simp
  · simp

/-- C8: `deploy_dependencies` performs exactly one copy per configured
dependency, in configuration order, and each absolute source path `p`
is copied to the mirrored destination `<build_root>/p` (the leading
separator of `p` stripped before joining). -/
theorem C8_deploy_mirror (build_dir : String) (deps : List String)
    (habs : ∀ d ∈ deps, isAbsolute d = true) :
    (deploy_dependencies build_dir deps).length = deps.length ∧
    deploy_dependencies build_dir deps = deps.map (fun d => (d, build_dir ++ d)) := by
  refine ⟨by simp [deploy_dependencies], ?_⟩
  simp only [deploy_dependencies]
  exact List.map_congr_left (fun d hd => by
    simp [copy_, habs d hd, pathJoin_relative_to_root build_dir d (habs d hd)])

/-- C8 witness: the spec's busybox example. -/
theorem C8_witness :
    (deploy_dependencies "/tmp/b" ["/bin/busybox"]).length = 1 ∧
    deploy_dependencies "/tmp/b" ["/bin/busybox"] =
      [("/bin/busybox", "/tmp/b/bin/busybox")] := by
  have h := C8_deploy_mirror "/tmp/b" ["/bin/busybox"] (by decide)
  refine ⟨h.1, ?_⟩
  rw [h.2]
  decide

theorem generate_init_shape (cfg : GenConfig) :
    (∃ e tr, generate_init cfg = (tr, .error e) ∧
       ∀ p c m, IEvent.wrote p c m ∉ tr) ∨
    (∃ out w tr, generate_init cfg =
        (tr ++ [IEvent.wrote w.path w.contents w.mode], .ok (out, w)) ∧
       ∀ p c m, IEvent.wrote p c m ∉ tr) := by
  rcases h1 : run_hook cfg.imports "init_pre" with ⟨t1, r1⟩
  cases r1 with
  | error e0 =>
    left
    refine ⟨e0, t1, by simp [generate_init, h1], ?_⟩
    intro p c m hm
    exact run_hook_no_wrote cfg.imports "init_pre" p c m (by rw [h1]; exact hm)
  | ok pre =>
    rcases h2 : (if customInitTruthy cfg.imports
                 then run_hook cfg.imports "custom_init"
                 else generate_init_main cfg.imports) with ⟨t2, r2⟩
    have ht2 : ∀ p c m, IEvent.wrote p c m ∉ t2 := by
      by_cases hcc : customInitTruthy cfg.imports = true
      · rw [if_pos hcc] at h2
        intro p c m hm
        exact run_hook_no_wrote cfg.imports "custom_init" p c m (by rw [h2]; exact hm)
      · rw [if_neg hcc] at h2
        intro p c m hm
        exact generate_init_main_no_wrote cfg.imports p c m (by rw [h2]; exact hm)
    cases r2 with
    | error e0 =>
      left
      refine ⟨e0, t1 ++ t2, by simp [generate_init, h1, h2], ?_⟩
      intro p c m hm
      rcases List.mem_append.mp hm with hm | hm
      · exact run_hook_no_wrote cfg.imports "init_pre" p c m (by rw [h1]; exact hm)
      · exact ht2 p c m hm
    | ok mid =>
      rcases h3 : run_hook cfg.imports "init_final" with ⟨t3, r3⟩
      cases r3 with
      | error e0 =>
        left
        refine ⟨e0, t1 ++ t2 ++ t3, by simp [generate_init, h1, h2, h3], ?_⟩
        intro p c m hm
        rcases List.mem_append.mp hm with hm | hm
        · rcases List.mem_append.mp hm with hm | hm
          · exact run_hook_no_wrote cfg.imports "init_pre" p c m (by rw [h1]; exact hm)
          · exact ht2 p c m hm
        · exact run_hook_no_wrote cfg.imports "init_final" p c m (by rw [h3]; exact hm)
      | ok fin =>
        right
        refine ⟨cfg.shebang :: ("# Generated by initramfs_generator.py v" ++ version) ::
            (pre ++ mid ++ fin ++ ["\n\n# END INIT"]),
          write_ cfg.build_dir "init"
            (cfg.shebang :: ("# Generated by initramfs_generator.py v" ++ version) ::
              (pre ++ mid ++ fin ++ ["\n\n# END INIT"])) 0o755 true,
          t1 ++ t2 ++ t3, by simp [generate_init, h1, h2, h3], ?_⟩
        intro p c m hm
        rcases List.mem_append.mp hm with hm | hm
        · rcases List.mem_append.mp hm with hm | hm
          · exact run_hook_no_wrote cfg.imports "init_pre" p c m (by rw [h1]; exact hm)
          · exact ht2 p c m hm
        · exact run_hook_no_wrote cfg.imports "init_final" p c m (by rw [h3]; exact hm)

/-- C9: a hook exception during any stage of `generate_init` propagates
uncaught as the overall result and no write event occurs; on success the
write is the single last event, after all stage invocations; an
`init_pre` exception surfaces unchanged. -/
theorem C9_write_only_after_stages (cfg : GenConfig) :
    (∀ e, (generate_init cfg).2 = .error e →
      ∀ p c m, IEvent.wrote p c m ∉ (generate_init cfg).1) ∧
    (∀ out w, (generate_init cfg).2 = .ok (out, w) →
      ∃ tr, (generate_init cfg).1 = tr ++ [IEvent.wrote w.path w.contents w.mode] ∧
        ∀ p c m, IEvent.wrote p c m ∉ tr) ∧
    (∀ e, (run_hook cfg.imports "init_pre").2 = .error e →
      (generate_init cfg).2 = .error e) := by
  refine ⟨?_, ?_, ?_⟩
  · intro e he p c m hm
    rcases generate_init_shape cfg with ⟨e1, tr, hfull, hnw⟩ | ⟨out, w, tr, hfull, hnw⟩
    · rw [hfull] at hm
      exact hnw p c m hm
    · rw [hfull] at he
      simp at he
  · intro out w hok
    rcases generate_init_shape cfg with ⟨e1, tr, hfull, hnw⟩ | ⟨out0, w0, tr, hfull, hnw⟩
    · rw [hfull] at hok
      simp at hok
    · rw [hfull] at hok
      simp only [Except.ok.injEq, Prod.mk.injEq] at hok
      refine ⟨tr, ?_, hnw⟩
      rw [hfull, hok.2]
  · intro e hpre
    rcases h1 : run_hook cfg.imports "init_pre" with ⟨t1, r1⟩
    rw [h1] at hpre
    cases r1 with
    | error e0 =>
      simp at hpre
      simp [generate_init, h1, hpre]
    | ok pre => simp at hpre

/-- C9 witness: with an `init_pre` hook that raises, the exception
surfaces and no write event appears in the trace. -/
theorem C9_witness :
    (generate_init cfgRaise).2 = .error (.hookException "kaboom") ∧
    IEvent.wrote "/b/init" "" 0o755 ∉ (generate_init cfgRaise).1 := by
  have hpre : (run_hook cfgRaise.imports "init_pre").2 =
      .error (.hookException "kaboom") := by decide
  have h3 := (C9_write_only_after_stages cfgRaise).2.2 (.hookException "kaboom") hpre
  exact ⟨h3, (C9_write_only_after_stages cfgRaise).1 (.hookException "kaboom") h3
    "/b/init" "" 0o755⟩

/-- C5: when `custom_init` has at least one registered hook, every hook
invocation during `generate_init` belongs to `init_pre`, `custom_init`
or `init_final` (so no `init_main`, `init_late` or `init_mount` hook
runs) and the `custom_init` invocations do occur once `init_pre`
succeeded; with no (or empty) `custom_init` registration, a successful
`generate_init` runs the stages exactly in the order `init_pre`,
`init_main`, `init_late`, `init_mount`, `init_final`, then writes. -/
theorem C5_custom_init_exclusivity (cfg : GenConfig) :
    (customInitTruthy cfg.imports = true →
      (∀ lvl nm, IEvent.invoked lvl nm ∈ (generate_init cfg).1 →
        lvl = "init_pre" ∨ lvl = "custom_init" ∨ lvl = "init_final") ∧
      (∀ pre, (run_hook cfg.imports "init_pre").2 = .ok pre →
        ∀ e ∈ (run_hook cfg.imports "custom_init").1, e ∈ (generate_init cfg).1)) ∧
    (customInitTruthy cfg.imports = false →
      ∀ out w, (generate_init cfg).2 = .ok (out, w) →
        (generate_init cfg).1 =
          (run_hook cfg.imports "init_pre").1 ++ (run_hook cfg.imports "init_main").1 ++
          (run_hook cfg.imports "init_late").1 ++ (run_hook cfg.imports "init_mount").1 ++
          (run_hook cfg.imports "init_final").1 ++
          [IEvent.wrote w.path w.contents w.mode]) := by
  by_cases hc : customInitTruthy cfg.imports = true
  · refine ⟨fun _ => ⟨?_, ?_⟩, fun hfalse => absurd hc (by simp [hfalse])⟩
    · intro lvl nm hmem
      rcases h1 : run_hook cfg.imports "init_pre" with ⟨t1, r1⟩
      cases r1 with
      | error e0 =>
        simp [generate_init, h1] at hmem
        exact Or.inl (invoked_level_eq cfg.imports "init_pre" lvl nm (by rw [h1]; exact hmem))
      | ok pre =>
        rcases h2 : run_hook cfg.imports "custom_init" with ⟨t2, r2⟩
        cases r2 with
        | error e0 =>
          simp [generate_init, h1, hc, h2] at hmem
          rcases hmem with hm | hm
          · exact Or.inl (invoked_level_eq cfg.imports "init_pre" lvl nm (by rw [h1]; exact hm))
          · exact Or.inr (Or.inl
              (invoked_level_eq cfg.imports "custom_init" lvl nm (by rw [h2]; exact hm)))
        | ok mid =>
          rcases h3 : run_hook cfg.imports "init_final" with ⟨t3, r3⟩
          cases r3 with
          | error e0 =>
            simp [generate_init, h1, hc, h2, h3] at hmem
            rcases hmem with hm | hm | hm
            · exact Or.inl (invoked_level_eq cfg.imports "init_pre" lvl nm (by rw [h1]; exact hm))
            · exact Or.inr (Or.inl
                (invoked_level_eq cfg.imports "custom_init" lvl nm (by rw [h2]; exact hm)))
            · exact Or.inr (Or.inr
                (invoked_level_eq cfg.imports "init_final" lvl nm (by rw [h3]; exact hm)))
          | ok fin =>
            simp [generate_init, h1, hc, h2, h3] at hmem
            rcases hmem with hm | hm | hm
            · exact Or.inl (invoked_level_eq cfg.imports "init_pre" lvl nm (by rw [h1]; exact hm))
            · exact Or.inr (Or.inl
                (invoked_level_eq cfg.imports "custom_init" lvl nm (by rw [h2]; exact hm)))
            · exact Or.inr (Or.inr
                (invoked_level_eq cfg.imports "init_final" lvl nm (by rw [h3]; exact hm)))
    · intro pre0 hpre e he
      rcases h1 : run_hook cfg.imports "init_pre" with ⟨t1, r1⟩
      rw [h1] at hpre
      cases r1 with
      | error e0 => simp at hpre
      | ok pre1 =>
        rcases h2 : run_hook cfg.imports "custom_init" with ⟨t2, r2⟩
        rw [h2] at he
        cases r2 with
        | error e0 =>
          simp [generate_init, h1, hc, h2]
          exact Or.inr he
        | ok mid =>
          rcases h3 : run_hook cfg.imports "init_final" with ⟨t3, r3⟩
          cases r3 with
          | error e0 =>
            simp [generate_init, h1, hc, h2, h3]
            exact Or.inr (Or.inl he)
          | ok fin =>
            simp [generate_init, h1, hc, h2, h3]
            exact Or.inr (Or.inl he)
  · have hc' : customInitTruthy cfg.imports = false := by simpa using hc
    refine ⟨fun htrue => absurd htrue hc, fun _ => ?_⟩
    intro out w hok
    rcases h1 : run_hook cfg.imports "init_pre" with ⟨t1, r1⟩
    cases r1 with
    | error e0 =>
      have hbad : (generate_init cfg).2 = .error e0 := by simp [generate_init, h1]
      rw [hbad] at hok
      simp at hok
    | ok pre =>
      rcases hA : run_hook cfg.imports "init_main" with ⟨tA, rA⟩
      cases rA with
      | error e0 =>
        have hm : generate_init_main cfg.imports = (tA, .error e0) := by
          simp [generate_init_main, init_types, runLevels, hA]
        have hbad : (generate_init cfg).2 = .error e0 := by
          simp [generate_init, h1, hc', hm]
        rw [hbad] at hok
        simp at hok
      | ok mA =>
        rcases hB : run_hook cfg.imports "init_late" with ⟨tB, rB⟩
        cases rB with
        | error e0 =>
          have hm : generate_init_main cfg.imports = (tA ++ tB, .error e0) := by
            simp [generate_init_main, init_types, runLevels, hA, hB]
          have hbad : (generate_init cfg).2 = .error e0 := by
            simp [generate_init, h1, hc', hm]
          rw [hbad] at hok
          simp at hok
        | ok mB =>
          rcases hC : run_hook cfg.imports "init_mount" with ⟨tC, rC⟩
          cases rC with
          | error e0 =>
            have hm : generate_init_main cfg.imports = (tA ++ (tB ++ tC), .error e0) := by
              simp [generate_init_main, init_types, runLevels, hA, hB, hC]
            have hbad : (generate_init cfg).2 = .error e0 := by
              simp [generate_init, h1, hc', hm]
            rw [hbad] at hok
            simp at hok
          | ok mC =>
            have hm := generate_init_main_eq cfg.imports tA tB tC mA mB mC hA hB hC
            rcases h3 : run_hook cfg.imports "init_final" with ⟨t3, r3⟩
            cases r3 with
            | error e0 =>
              have hbad : (generate_init cfg).2 = .error e0 := by
                simp [generate_init, h1, hc', hm, h3]
              rw [hbad] at hok
              simp at hok
            | ok fin =>
              simp only [generate_init, h1, hc', hm, h3, Bool.false_eq_true, if_false] at hok ⊢
              simp only [Except.ok.injEq, Prod.mk.injEq] at hok
              rw [← hok.2]
              simp [h1, hA, hB, hC, h3]

/-- C5 witness: with a populated `custom_init` stage the custom hook's
invocation occurs in the build's trace, and with no `custom_init` the
trace is exactly the five stages in order followed by the write. -/
theorem C5_witness :
    IEvent.invoked "custom_init" "c1" ∈ (generate_init cfgCustom).1 ∧
    (generate_init cfgSmall).1 =
      (run_hook cfgSmall.imports "init_pre").1 ++
      (run_hook cfgSmall.imports "init_main").1 ++
      (run_hook cfgSmall.imports "init_late").1 ++
      (run_hook cfgSmall.imports "init_mount").1 ++
      (run_hook cfgSmall.imports "init_final").1 ++
      [IEvent.wrote wSmall.path wSmall.contents wSmall.mode] := by
  constructor
  · exact ((C5_custom_init_exclusivity cfgCustom).1 (by decide)).2
      ["\n\n# Begin init_pre"] (by decide)
      (IEvent.invoked "custom_init" "c1") (by decide)
  · exact (C5_custom_init_exclusivity cfgSmall).2 (by decide) linesSmall wSmall (by decide)

/-- C6 counterexample: the final element of the assembled init sequence
is `"\n\n# END INIT"`, not the bare `"# END INIT"` the claim states. -/
theorem C6_counterexample :
    okInit (generate_init cfgSmall).2 = some linesSmall ∧
    linesSmall.getLast? = some "\n\n# END INIT" ∧
    ("\n\n# END INIT" : String) ≠ "# END INIT" := by
  decide

/-- C6 (amended): with no populated `custom_init`, the assembled line
sequence is exactly the shebang, the version comment, the `init_pre`
output, the `init_main`, `init_late` and `init_mount` outputs in that
order, the `init_final` output, and the final element `"\n\n# END INIT"`
(the sentinel line preceded by two newlines); it is written to
`<build_dir>/init` with mode `0o755`, joined by newlines. -/
theorem C6_generate_init_layout (cfg : GenConfig)
    (t1 tA tB tC t3 : List IEvent) (pre mA mB mC fin : List String)
    (hcust : customInitTruthy cfg.imports = false)
    (h1 : run_hook cfg.imports "init_pre" = (t1, .ok pre))
    (hA : run_hook cfg.imports "init_main" = (tA, .ok mA))
    (hB : run_hook cfg.imports "init_late" = (tB, .ok mB))
    (hC : run_hook cfg.imports "init_mount" = (tC, .ok mC))
    (h3 : run_hook cfg.imports "init_final" = (t3, .ok fin)) :
    (generate_init cfg).2 =
      .ok (cfg.shebang :: ("# Generated by initramfs_generator.py v" ++ version) ::
             (pre ++ (mA ++ mB ++ mC) ++ fin ++ ["\n\n# END INIT"]),
           ⟨cfg.build_dir ++ "/init",
            String.intercalate "\n"
              (cfg.shebang :: ("# Generated by initramfs_generator.py v" ++ version) ::
                (pre ++ (mA ++ mB ++ mC) ++ fin ++ ["\n\n# END INIT"])),
            0o755⟩) := by
  have hm := generate_init_main_eq cfg.imports tA tB tC mA mB mC hA hB hC
  simp [generate_init, h1, hcust, hm, h3, write_, isAbsolute_init, pathJoin_init]

/-- C6 witness: the amended layout evaluated on a concrete
configuration with all five stages registered. -/
theorem C6_witness :
    (generate_init cfgSmall).2 =
      .ok (linesSmall, ⟨"/b/init", String.intercalate "\n" linesSmall, 0o755⟩) := by
  have h := C6_generate_init_layout cfgSmall [] [] [] [] []
      ["\n\n# Begin init_pre"] ["\n\n# Begin init_main"] ["\n\n# Begin init_late"]
      ["\n\n# Begin init_mount"] ["\n\n# Begin init_final"]
      (by decide) (by decide) (by decide) (by decide) (by decide) (by decide)
  rw [h]
  decide

end Ugrd
